import Mathlib

set_option maxRecDepth 40000

/-!
Verification of the offline-first task sync engine
(services/syncService.ts and services/taskService.ts).

The embedding is shallow: each TypeScript function becomes a Lean
function over explicit state.  JavaScript Date values are modelled as a
pair of views, the millisecond epoch value returned by getTime and the
string returned by toISOString; the code only ever consumes a Date
through one of those two accessors.  The SQLite store (src/db/database
is not part of the sources; only its call sites are) is modelled from
the spec as a simple row store: UPDATE maps over rows, DELETE filters,
INSERT appends, and a statement parameter left unbound is NULL, so a
WHERE clause comparing against it matches no row.  32-bit JavaScript
integer arithmetic is modelled on Int with explicit wrapping.
-/

namespace SyncSpec

/-- Operation kind of a queued mutation. -/
inductive Op where
  | create
  | update
  | delete
deriving DecidableEq

/-- Per-task sync lifecycle state. -/
inductive SyncStatus where
  | pending
  | inProgress
  | synced
  | error
  | failed
deriving DecidableEq

/-- A JavaScript Date, seen through its two accessors used by the code:
getTime (epoch milliseconds) and toISOString. -/
structure Date where
  ms : Nat
  iso : String
deriving DecidableEq

/-- A task record, both as the row stored in the tasks table and as the
in-memory object (mapRowToTask aligns the two).  The version column is
referenced by the deleteTask UPDATE and read (as an optional field) by
inferOperationType. -/
structure Task where
  id : String
  title : String
  description : String
  completed : Bool
  created_at : Date
  updated_at : Date
  is_deleted : Bool
  sync_status : SyncStatus
  server_id : Option String
  last_synced_at : Option Date
  version : Option Int
deriving DecidableEq

/-- A row of the sync_queue table (= SyncQueueItem). -/
structure QueueRow where
  id : String
  task_id : String
  operation : Op
  data : Task
  created_at : Date
  retry_count : Nat
  error_message : Option String
deriving DecidableEq

/-- A row of the dead_letter_queue table. -/
structure DLQRow where
  id : String
  task_id : String
  operation : Op
  data : Task
  error_message : Option String
  failed_at : Date
deriving DecidableEq

/-- One per-item error record of a SyncResult. -/
structure SyncError where
  task_id : String
  operation : String
  error : String
  timestamp : Date
deriving DecidableEq

/-- The per-invocation summary returned by sync(). -/
structure SyncResult where
  success : Bool
  synced_items : Nat
  failed_items : Nat
  errors : List SyncError
deriving DecidableEq

/-- One per-item outcome of a batch response (wire contract: client_id,
optional server_id, status string, optional resolved_data, optional
error message). -/
structure ProcessedItem where
  client_id : String
  server_id : Option String
  status : String
  resolved_data : Option Task
  error : Option String
deriving DecidableEq

/-- The remote reply to a batch post. -/
structure BatchSyncResponse where
  processed_items : List ProcessedItem
deriving DecidableEq

/-- The durable local state: tasks table, sync_queue table, dead-letter
table, plus a counter supplying fresh uuid values. -/
structure DB where
  tasks : List Task
  sync_queue : List QueueRow
  dead_letter_queue : List DLQRow
  nextId : Nat
deriving DecidableEq

/-- The ambient world of one sync pass: the connectivity probe outcome,
the transport (axios.post either returns a response or throws a message)
and the current wall clock. -/
structure Env where
  connectivity : Bool
  post : List QueueRow → Except String BatchSyncResponse
  now : Date

/-- State threaded through a pass: the accumulating SyncResult, the
store, and the ghost trace of batches actually handed to the transport
(appended exactly when axios.post is invoked). -/
structure PassState where
  result : SyncResult
  db : DB
  posted : List (List QueueRow)

/-- Retry budget (MAX_RETRY_COUNT = 3). -/
def MAX_RETRY_COUNT : Nat := 3

/-- Default batch size (SYNC_BATCH_SIZE, default 10). -/
def SYNC_BATCH_SIZE : Nat := 10

/-- The OP_PRIORITY record: create 1, update 2, delete 3. -/
def OP_PRIORITY : Op → Int
  | .create => 1
  | .update => 2
  | .delete => 3

/-- Rendering of an operation kind as the string stored in rows and
error records. -/
def opStr : Op → String
  | .create => "create"
  | .update => "update"
  | .delete => "delete"

/-- Fresh uuid supply for the modelled uuidv4 calls. -/
def freshId (db : DB) : String := "uuid-" ++ toString db.nextId

/-- The truthiness test the code applies to the optional version field:
a JavaScript number is truthy exactly when it is nonzero. -/
def versionTruthyLeOne (t : Task) : Bool :=
  match t.version with
  | some v => v ≠ 0 && v ≤ 1
  | none => false

/-- inferOperationType: delete when the delete flag is set; else create
when the version field is truthy and at most 1, or the creation and
update instants coincide; else update. -/
def inferOperationType (t : Task) : Op :=
  if t.is_deleted then .delete
  else if versionTruthyLeOne t || (t.created_at.ms == t.updated_at.ms) then .create
  else .update

/-- resolveConflict: the strictly later updated_at wins; on a tie the
local side wins exactly when its inferred operation priority is greater
than or equal to the remote one. -/
def resolveConflict (localTask serverTask : Task) : Task :=
  if localTask.updated_at.ms > serverTask.updated_at.ms then localTask
  else if serverTask.updated_at.ms > localTask.updated_at.ms then serverTask
  else if OP_PRIORITY (inferOperationType localTask) ≥ OP_PRIORITY (inferOperationType serverTask)
  then localTask
  else serverTask

/-- Wrap an integer to the signed 32-bit range, as JavaScript bitwise
operators do. -/
def toInt32 (n : Int) : Int := (n + 2 ^ 31) % 2 ^ 32 - 2 ^ 31

/-- One step of the checksum loop: hash = (hash << 5) - hash + chr,
then hash |= 0.  The shift itself already wraps to 32 bits. -/
def jsHashStep (h : Int) (c : Nat) : Int := toInt32 (toInt32 (h * 32) - h + c)

/-- The rolling hash over the code units of a string, starting at 0. -/
def jsHash (s : String) : Int := s.data.foldl (fun h c => jsHashStep h c.toNat) 0

/-- The per-item fragment taskId:operation:isoTimestamp. -/
def itemKey (i : QueueRow) : String :=
  i.task_id ++ ":" ++ opStr i.operation ++ ":" ++ i.created_at.iso

/-- calculateChecksum: hash the pipe-joined item fragments and render
the signed 32-bit result in base 10. -/
def calculateChecksum (items : List QueueRow) : String :=
  toString (jsHash (String.intercalate "|" (items.map itemKey)))

/-- Lexicographic comparison of character lists by code unit, the
order JavaScript applies to strings. -/
def charsLt : List Char → List Char → Bool
  | [], [] => false
  | [], _ :: _ => true
  | _ :: _, [] => false
  | a :: as, b :: bs =>
    if a.toNat < b.toNat then true
    else if b.toNat < a.toNat then false
    else charsLt as bs

/-- Strict lexicographic string comparison. -/
def strLt (a b : String) : Bool := charsLt a.data b.data

/-- Nonstrict lexicographic string comparison. -/
def strLe (a b : String) : Bool := !(charsLt b.data a.data)

/-- The comparator passed to the canonical sort: task identity first
(lexicographic), then enqueue instant, then operation priority. -/
def syncCompare (a b : QueueRow) : Int :=
  if a.task_id ≠ b.task_id then (if strLt a.task_id b.task_id then -1 else 1)
  else if a.created_at.ms ≠ b.created_at.ms then (a.created_at.ms : Int) - (b.created_at.ms : Int)
  else OP_PRIORITY a.operation - OP_PRIORITY b.operation

/-- The nonstrict order induced by the comparator. -/
def canonRel (a b : QueueRow) : Prop := syncCompare a b ≤ 0

instance : DecidableRel canonRel := fun _ _ => inferInstanceAs (Decidable (_ ≤ _))

/-- The ORDER BY created_at ASC of the initial SELECT, on the stored
ISO strings (byte-wise text collation). -/
def isoRel (a b : QueueRow) : Prop := strLe a.created_at.iso b.created_at.iso = true

instance : DecidableRel isoRel := fun _ _ => inferInstanceAs (Decidable (_ = _))

/-- The ordering the pass imposes before batching: the SELECT orders by
enqueue timestamp, then the in-memory sort imposes the canonical
comparator. -/
def canonicalOrder (l : List QueueRow) : List QueueRow :=
  List.insertionSort canonRel (List.insertionSort isoRel l)

/-- Fuel-driven slicing of a list into consecutive batches of size n,
mirroring the for loop over slice(i, i + SYNC_BATCH_SIZE). -/
def chunksFuel (n : Nat) : Nat → List α → List (List α)
  | 0, _ => []
  | _, [] => []
  | fuel + 1, x :: xs => (x :: xs).take n :: chunksFuel n fuel ((x :: xs).drop n)

/-- Batches of size n covering the list in order. -/
def chunksOf (n : Nat) (l : List α) : List (List α) := chunksFuel n l.length l

/-- JavaScript string defaulting with ||: an absent or empty string
falls back to the default. -/
def jsOr (o : Option String) (d : String) : String :=
  match o with
  | some s => if s = "" then d else s
  | none => d

/-- getTask: first row with the given id, hidden when its soft-delete
flag is set. -/
def getTask (db : DB) (id : String) : Option Task :=
  match db.tasks.find? (fun t => t.id == id) with
  | some row => if row.is_deleted then none else some row
  | none => none

/-- addToSyncQueue: append a queue row with a fresh uuid, the current
instant and retry counter 0. -/
def addToSyncQueue (env : Env) (db : DB) (taskId : String) (operation : Op) (data : Task) : DB :=
  { db with
    sync_queue := db.sync_queue ++ [⟨freshId db, taskId, operation, data, env.now, 0, none⟩],
    nextId := db.nextId + 1 }

/-- A Partial Task value: every field optional, absent fields keep the
existing value when spread over a task. -/
structure TaskPatch where
  id : Option String
  title : Option String
  description : Option String
  completed : Option Bool
  created_at : Option Date
  updated_at : Option Date
  is_deleted : Option Bool
  sync_status : Option SyncStatus
  server_id : Option (Option String)
  last_synced_at : Option (Option Date)
  version : Option (Option Int)
deriving DecidableEq

/-- The all-absent patch. -/
def emptyPatch : TaskPatch :=
  ⟨none, none, none, none, none, none, none, none, none, none, none⟩

/-- The object spread over an existing task. -/
def mergePatch (e : Task) (p : TaskPatch) : Task :=
  { id := p.id.getD e.id
    title := p.title.getD e.title
    description := p.description.getD e.description
    completed := p.completed.getD e.completed
    created_at := p.created_at.getD e.created_at
    updated_at := p.updated_at.getD e.updated_at
    is_deleted := p.is_deleted.getD e.is_deleted
    sync_status := p.sync_status.getD e.sync_status
    server_id := p.server_id.getD e.server_id
    last_synced_at := p.last_synced_at.getD e.last_synced_at
    version := p.version.getD e.version }

/-- View of a complete task as a patch carrying every field, as when a
full task object is passed where a Partial Task is expected. -/
def taskToPatch (t : Task) : TaskPatch :=
  ⟨some t.id, some t.title, some t.description, some t.completed, some t.created_at,
   some t.updated_at, some t.is_deleted, some t.sync_status, some t.server_id,
   some t.last_synced_at, some t.version⟩

/-- createTask: build the task with defaulted fields, both timestamps
equal to now and sync state pending, insert its row (the INSERT does
not set the version column, which stays NULL), and enqueue a create
mutation. -/
def createTask (env : Env) (db : DB) (taskData : TaskPatch) : Task × DB :=
  let task : Task :=
    { id := freshId db
      title := jsOr taskData.title "Untitled Task"
      description := jsOr taskData.description ""
      completed := taskData.completed.getD false
      created_at := env.now
      updated_at := env.now
      is_deleted := false
      sync_status := .pending
      server_id := none
      last_synced_at := none
      version := none }
  let db1 : DB := { db with tasks := db.tasks ++ [task], nextId := db.nextId + 1 }
  (task, addToSyncQueue env db1 task.id .create task)

/-- updateTask: read the existing task, build the updated object with
updated_at refreshed and sync state pending, run the UPDATE statement
and enqueue an update mutation.  The UPDATE statement has seven
placeholders but the code supplies only six values, so the id slot is
left unbound (NULL); WHERE id = NULL matches no row and the tasks
table is unchanged. -/
def updateTask (env : Env) (db : DB) (id : String) (updates : TaskPatch) :
    Option Task × DB :=
  match getTask db id with
  | none => (none, db)
  | some existing =>
      let updated : Task :=
        { mergePatch existing updates with updated_at := env.now, sync_status := .pending }
      let db1 := addToSyncQueue env db updated.id .update updated
      (some updated, db1)

/-- deleteTask: soft delete.  The UPDATE sets the delete flag, refreshes
updated_at, resets sync state to pending and increments the version
column (NULL stays NULL), then a delete mutation is enqueued with the
snapshot of the task marked deleted. -/
def deleteTask (env : Env) (db : DB) (id : String) : Bool × DB :=
  match getTask db id with
  | none => (false, db)
  | some existing =>
      let db1 : DB :=
        { db with
          tasks := db.tasks.map fun t =>
            if t.id == id then
              { t with is_deleted := true, updated_at := env.now,
                       sync_status := .pending, version := t.version.map (· + 1) }
            else t }
      (true, addToSyncQueue env db1 id .delete
        { existing with is_deleted := true, updated_at := env.now })

/-- The server_id parameter of the status UPDATE: serverData?.server_id
|| null, then COALESCE keeps the stored value when the parameter is
NULL.  An empty string is falsy and becomes NULL. -/
def coalesceServerId (serverData : Option Task) : Option String :=
  match serverData with
  | some d =>
      match d.server_id with
      | some s => if s = "" then none else some s
      | none => none
  | none => none

/-- updateSyncStatus: set the sync state of the matching task, COALESCE
the server id, stamp last_synced_at when the new state is synced, and
on a terminal synced or failed state delete every queue row owned by
the task. -/
def updateSyncStatus (env : Env) (db : DB) (taskId : String) (status : SyncStatus)
    (serverData : Option Task) : DB :=
  let sid := coalesceServerId serverData
  let db1 : DB :=
    { db with
      tasks := db.tasks.map fun t =>
        if t.id == taskId then
          { t with sync_status := status
                   server_id := match sid with | some s => some s | none => t.server_id
                   last_synced_at :=
                     if status == SyncStatus.synced then some env.now else t.last_synced_at }
        else t }
  if status == SyncStatus.synced || status == SyncStatus.failed then
    { db1 with sync_queue := db1.sync_queue.filter (fun q => q.task_id != taskId) }
  else db1

/-- markTasksInProgress: set every listed task to in-progress. -/
def markTasksInProgress (db : DB) (taskIds : List String) : DB :=
  { db with
    tasks := db.tasks.map fun t =>
      if taskIds.contains t.id then { t with sync_status := .inProgress } else t }

/-- First-occurrence deduplication, as Array.from over a Set. -/
def uniqueTaskIds (batch : List QueueRow) : List String :=
  (batch.map (·.task_id)).foldl (fun acc x => if acc.contains x then acc else acc ++ [x]) []

/-- handleSyncError: re-read the retry counter of the entry, increment
it; below the budget the entry keeps its place with the new counter and
message and the task is marked error; at the budget the entry is copied
into the dead-letter table under a fresh uuid, removed from the queue,
and the task is marked failed. -/
def handleSyncError (env : Env) (db : DB) (item : QueueRow) (msg : String) : DB :=
  let current : Nat :=
    match db.sync_queue.find? (fun q => q.id == item.id) with
    | some r => r.retry_count
    | none => item.retry_count
  let retryCount := current + 1
  if retryCount ≥ MAX_RETRY_COUNT then
    let db1 : DB :=
      { db with
        dead_letter_queue :=
          db.dead_letter_queue ++
            [⟨freshId db, item.task_id, item.operation, item.data, some msg, env.now⟩],
        nextId := db.nextId + 1 }
    let db2 : DB := { db1 with sync_queue := db1.sync_queue.filter (fun q => q.id != item.id) }
    updateSyncStatus env db2 item.task_id .failed none
  else
    let db1 : DB :=
      { db with
        sync_queue := db.sync_queue.map fun q =>
          if q.id == item.id then { q with retry_count := retryCount, error_message := some msg }
          else q }
    updateSyncStatus env db1 item.task_id SyncStatus.error none

/-- The accounting shared by the two item-failure branches of the
response loop: one error record, the failed counter, the task marked
error by a direct UPDATE (the queue is not touched), and the pass
marked unsuccessful. -/
def itemFailure (env : Env) (st : SyncResult × DB) (clientId msg : String) :
    SyncResult × DB :=
  (⟨false, st.1.synced_items, st.1.failed_items + 1,
    st.1.errors ++ [⟨clientId, "unknown", msg, env.now⟩]⟩,
   { st.2 with
     tasks := st.2.tasks.map fun t =>
       if t.id == clientId then { t with sync_status := SyncStatus.error } else t })

/-- Handling of one per-item outcome of a returned batch response. -/
def processOutcome (env : Env) (st : SyncResult × DB) (res : ProcessedItem) :
    SyncResult × DB :=
  let result := st.1
  let db := st.2
  if res.status == "success" then
    ({ result with synced_items := result.synced_items + 1 },
     updateSyncStatus env db res.client_id .synced res.resolved_data)
  else if res.status == "conflict" then
    match res.resolved_data with
    | some serverTask =>
        (match getTask db res.client_id with
         | some localTask =>
             let resolved := resolveConflict localTask serverTask
             let db1 := (updateTask env db res.client_id (taskToPatch resolved)).2
             let db2 := updateSyncStatus env db1 res.client_id .synced (some resolved)
             ({ result with synced_items := result.synced_items + 1 }, db2)
         | none => itemFailure env st res.client_id "Conflict: local task missing")
    | none => itemFailure env st res.client_id (jsOr res.error "Unknown error")
  else
    itemFailure env st res.client_id (jsOr res.error "Unknown error")

/-- The catch block of the batch loop: every item of the batch goes
through handleSyncError, contributes one error record and one failed
count, and the pass is marked unsuccessful. -/
def failBatch (env : Env) (msg : String) (st : SyncResult × DB) (batch : List QueueRow) :
    SyncResult × DB :=
  let folded :=
    batch.foldl
      (fun acc it =>
        (⟨acc.1.success, acc.1.synced_items, acc.1.failed_items + 1,
          acc.1.errors ++ [⟨it.task_id, opStr it.operation, msg, env.now⟩]⟩,
         handleSyncError env acc.2 it msg))
      st
  ({ folded.1 with success := false }, folded.2)

/-- Processing of one batch: mark its tasks in-progress, then either
hand the batch to the transport (recording the attempt) and fold the
per-item outcomes, or, when the connectivity probe fails or the
transport throws, run the catch block.  When the probe fails the
transport is never invoked. -/
def runBatch (env : Env) (st : PassState) (batch : List QueueRow) : PassState :=
  let db1 := markTasksInProgress st.db (uniqueTaskIds batch)
  if env.connectivity then
    match env.post batch with
    | .ok resp =>
        let folded := resp.processed_items.foldl (processOutcome env) (st.result, db1)
        ⟨folded.1, folded.2, st.posted ++ [batch]⟩
    | .error msg =>
        let folded := failBatch env msg (st.result, db1) batch
        ⟨folded.1, folded.2, st.posted ++ [batch]⟩
  else
    let folded := failBatch env "Server not reachable" (st.result, db1) batch
    ⟨folded.1, folded.2, st.posted⟩

/-- The SyncResult a pass starts from. -/
def initResult : SyncResult := ⟨true, 0, 0, []⟩

/-- The sync pass: snapshot the queue in canonical order, slice it into
batches of SYNC_BATCH_SIZE and process them sequentially. -/
def sync (env : Env) (db : DB) : PassState :=
  (chunksOf SYNC_BATCH_SIZE (canonicalOrder db.sync_queue)).foldl (runBatch env)
    ⟨initResult, db, []⟩

/-! Order-theoretic facts about the canonical comparator. -/

theorem char_toNat_inj {a b : Char} (h : a.toNat = b.toNat) : a = b :=
  Char.ext (UInt32.eq_of_val_eq (Fin.ext h))

theorem charsLt_irrefl : ∀ a : List Char, charsLt a a = false := by
  intro a
  induction a with
  | nil => rfl
  | cons x xs ih => simp [charsLt, ih]

theorem charsLt_trans :
    ∀ (a b c : List Char), charsLt a b = true → charsLt b c = true → charsLt a c = true := by
  intro a
  induction a with
  | nil =>
      intro b c hab hbc
      cases b with
      | nil => simp [charsLt] at hab
      | cons y ys =>
          cases c with
          | nil => simp [charsLt] at hbc
          | cons z zs => simp [charsLt]
  | cons x xs ih =>
      intro b c hab hbc
      cases b with
      | nil => simp [charsLt] at hab
      | cons y ys =>
          cases c with
          | nil => simp [charsLt] at hbc
          | cons z zs =>
              simp only [charsLt] at hab hbc ⊢
              rcases Nat.lt_trichotomy x.toNat y.toNat with h1 | h1 | h1
              · rcases Nat.lt_trichotomy y.toNat z.toNat with h2 | h2 | h2
                · rw [if_pos (by omega)]
                · rw [if_pos (by omega)]
                · rw [if_neg (by omega), if_pos h2] at hbc
                  exact Bool.noConfusion hbc
              · rcases Nat.lt_trichotomy y.toNat z.toNat with h2 | h2 | h2
                · rw [if_pos (by omega)]
                · rw [if_neg (by omega), if_neg (by omega)] at hab
                  rw [if_neg (by omega), if_neg (by omega)] at hbc
                  rw [if_neg (by omega), if_neg (by omega)]
                  exact ih ys zs hab hbc
                · rw [if_neg (by omega), if_pos h2] at hbc
                  exact Bool.noConfusion hbc
              · rw [if_neg (by omega), if_pos h1] at hab
                exact Bool.noConfusion hab

theorem charsLt_total :
    ∀ (a b : List Char), a ≠ b → charsLt a b = true ∨ charsLt b a = true := by
  intro a
  induction a with
  | nil =>
      intro b hne
      cases b with
      | nil => exact absurd rfl hne
      | cons y ys => left; rfl
  | cons x xs ih =>
      intro b hne
      cases b with
      | nil => right; rfl
      | cons y ys =>
          rcases Nat.lt_trichotomy x.toNat y.toNat with h | h | h
          · left; simp [charsLt, h]
          · have hxy : x = y := char_toNat_inj h
            subst hxy
            have hne2 : xs ≠ ys := fun he => hne (by rw [he])
            rcases ih ys hne2 with h' | h'
            · left; simp [charsLt, h']
            · right; simp [charsLt, h']
          · right; simp [charsLt, h, Nat.lt_asymm h]

theorem charsLt_asymm {a b : List Char} (h : charsLt a b = true) : charsLt b a = false := by
  by_contra hc
  have hba : charsLt b a = true := by
    revert hc; cases charsLt b a <;> simp
  have h2 := charsLt_trans a b a h hba
  rw [charsLt_irrefl] at h2
  cases h2

theorem str_data_inj {a b : String} (h : a.data = b.data) : a = b :=
  congrArg String.mk h

theorem strLt_irrefl (a : String) : strLt a a = false := charsLt_irrefl a.data

theorem strLt_total {a b : String} (hne : a ≠ b) : strLt a b = true ∨ strLt b a = true :=
  charsLt_total a.data b.data (fun h => hne (str_data_inj h))

theorem strLt_trans {a b c : String} (h1 : strLt a b = true) (h2 : strLt b c = true) :
    strLt a c = true :=
  charsLt_trans a.data b.data c.data h1 h2

theorem strLt_asymm {a b : String} (h : strLt a b = true) : strLt b a = false :=
  charsLt_asymm h

/-- Modelled from the claim wording for C3: the canonical order sorts by
owning task identity first (lexicographic), then by enqueue timestamp
ascending, then by operation priority create < update < delete. -/
def claimOrder (a b : QueueRow) : Prop :=
  strLt a.task_id b.task_id = true ∨
    (a.task_id = b.task_id ∧
      (a.created_at.ms < b.created_at.ms ∨
        (a.created_at.ms = b.created_at.ms ∧
          OP_PRIORITY a.operation ≤ OP_PRIORITY b.operation)))

theorem canonRel_iff (a b : QueueRow) : canonRel a b ↔ claimOrder a b := by
  unfold canonRel syncCompare claimOrder
  split_ifs with hid hlt hms
  · constructor
    · intro _
      exact Or.inl hlt
    · intro _
      omega
  · constructor
    · intro h
      omega
    · intro h
      rcases h with h | ⟨heq, _⟩
      · exact absurd h hlt
      · exact absurd heq hid
  · have heq : a.task_id = b.task_id := not_ne_iff.mp hid
    constructor
    · intro h
      exact Or.inr ⟨heq, Or.inl (by omega)⟩
    · intro h
      rcases h with h | ⟨_, h2 | ⟨hmseq, _⟩⟩
      · rw [heq, strLt_irrefl] at h
        exact Bool.noConfusion h
      · omega
      · exact absurd hmseq hms
  · have heq : a.task_id = b.task_id := not_ne_iff.mp hid
    have hmseq : a.created_at.ms = b.created_at.ms := not_ne_iff.mp hms
    constructor
    · intro h
      exact Or.inr ⟨heq, Or.inr ⟨hmseq, by omega⟩⟩
    · intro h
      rcases h with h | ⟨_, h2 | ⟨_, hop⟩⟩
      · rw [heq, strLt_irrefl] at h
        exact Bool.noConfusion h
      · omega
      · omega

instance : IsTrans QueueRow canonRel := by
  constructor
  intro a b c hab hbc
  rw [canonRel_iff] at hab hbc ⊢
  unfold claimOrder at hab hbc ⊢
  rcases hab with hab | ⟨hid1, hab⟩
  · rcases hbc with hbc | ⟨hid2, _⟩
    · exact Or.inl (strLt_trans hab hbc)
    · rw [hid2] at hab; exact Or.inl hab
  · rcases hbc with hbc | ⟨hid2, hbc⟩
    · rw [hid1]; exact Or.inl hbc
    · exact Or.inr ⟨hid1.trans hid2, by omega⟩

instance : IsTotal QueueRow canonRel := by
  constructor
  intro a b
  rw [canonRel_iff, canonRel_iff]
  unfold claimOrder
  by_cases hid : a.task_id = b.task_id
  · rw [hid]
    rcases Nat.lt_trichotomy a.created_at.ms b.created_at.ms with h | h | h
    · exact Or.inl (Or.inr ⟨rfl, Or.inl h⟩)
    · rcases Int.le_total (OP_PRIORITY a.operation) (OP_PRIORITY b.operation) with hp | hp
      · exact Or.inl (Or.inr ⟨rfl, Or.inr ⟨h, hp⟩⟩)
      · exact Or.inr (Or.inr ⟨rfl, Or.inr ⟨h.symm, hp⟩⟩)
    · exact Or.inr (Or.inr ⟨rfl, Or.inl h⟩)
  · rcases strLt_total hid with h | h
    · exact Or.inl (Or.inl h)
    · exact Or.inr (Or.inl h)

theorem charsNLt_trans {a b c : List Char} (h1 : charsLt b a = false)
    (h2 : charsLt c b = false) : charsLt c a = false := by
  by_contra hc
  have hca : charsLt c a = true := by
    revert hc; cases charsLt c a <;> simp
  by_cases hba : b = a
  · rw [hba] at h2; rw [hca] at h2; cases h2
  · rcases charsLt_total b a hba with h | h
    · rw [h] at h1; cases h1
    · have := charsLt_trans c a b hca h
      rw [this] at h2; cases h2

instance : IsTrans QueueRow isoRel := by
  constructor
  intro a b c hab hbc
  unfold isoRel strLe at hab hbc ⊢
  simp only [Bool.not_eq_true'] at hab hbc ⊢
  exact charsNLt_trans hab hbc

instance : IsTotal QueueRow isoRel := by
  constructor
  intro a b
  unfold isoRel strLe
  simp only [Bool.not_eq_true']
  by_cases h : charsLt b.created_at.iso.data a.created_at.iso.data = true
  · right
    exact charsLt_asymm h
  · left
    revert h; cases charsLt b.created_at.iso.data a.created_at.iso.data <;> simp

/-! Claim C3: the canonical ordering before batching. -/

/-- C3: the ordering imposed by the sync pass before batching is a
permutation of the queue snapshot, sorted by owning task identity
first (lexicographic), then by enqueue timestamp ascending, then by
operation priority create < update < delete; consequently entries
sharing a task identity appear in non-decreasing enqueue-timestamp
order. -/
theorem C3_canonical_order (l : List QueueRow) :
    (canonicalOrder l).Perm l ∧
    (canonicalOrder l).Pairwise claimOrder ∧
    (canonicalOrder l).Pairwise
      (fun a b => a.task_id = b.task_id → a.created_at.ms ≤ b.created_at.ms) := by
  have hsorted : (canonicalOrder l).Pairwise canonRel :=
    List.sorted_insertionSort canonRel (List.insertionSort isoRel l)
  have hclaim : (canonicalOrder l).Pairwise claimOrder :=
    hsorted.imp (fun hab => (canonRel_iff _ _).mp hab)
  refine ⟨?_, hclaim, ?_⟩
  · exact (List.perm_insertionSort canonRel _).trans (List.perm_insertionSort isoRel l)
  · refine hclaim.imp ?_
    intro a b hab htid
    rcases hab with h | ⟨_, h2 | ⟨hmseq, _⟩⟩
    · rw [htid, strLt_irrefl] at h
      exact Bool.noConfusion h
    · exact Nat.le_of_lt h2
    · exact Nat.le_of_eq hmseq

/-! Claim C2: conflict resolution. -/

/-- Modelled from the claim wording for C2: a version is inferred to be
a create when its version counter is at most 1 (no nonzero caveat) or
its timestamps coincide. -/
def claimedInferOp (t : Task) : Op :=
  if t.is_deleted then .delete
  else if (match t.version with | some v => decide (v ≤ 1) | none => false)
      || (t.created_at.ms == t.updated_at.ms) then .create
  else .update

/-- Modelled from the claim wording for C2: the strictly later
updated_at wins; on a tie the version whose claimed inferred operation
has equal or higher priority wins, local first. -/
def claimedResolve (l r : Task) : Task :=
  if l.updated_at.ms > r.updated_at.ms then l
  else if r.updated_at.ms > l.updated_at.ms then r
  else if OP_PRIORITY (claimedInferOp l) ≥ OP_PRIORITY (claimedInferOp r) then l
  else r

/-- A local version with version counter 0, distinct timestamps. -/
def cxLocal : Task :=
  ⟨"L", "t", "", false, ⟨0, "e0"⟩, ⟨5, "e5"⟩, false, .pending, none, none, some 0⟩

/-- A remote version with version counter 2, same updated_at. -/
def cxRemote : Task :=
  ⟨"R", "t", "", false, ⟨0, "e0"⟩, ⟨5, "e5"⟩, false, .pending, none, none, some 2⟩

/-- C2 counterexample: on an exact updated_at tie, a local version whose
version counter is 0 is claimed to be an inferred create (0 is at most
1) and hence to lose against a remote plain update; the code treats a
zero version counter as falsy, infers update, and the local version
wins.  The claimed rule and the code disagree at this input. -/
theorem C2_counterexample :
    cxLocal.updated_at = cxRemote.updated_at ∧
    cxLocal ≠ cxRemote ∧
    claimedResolve cxLocal cxRemote = cxRemote ∧
    resolveConflict cxLocal cxRemote = cxLocal := by
  refine ⟨rfl, by decide, by decide, by decide⟩

/-- Modelled from the amended claim wording for C2: create when the
version counter is present, nonzero and at most 1, or the timestamps
coincide. -/
def amendedInferOp (t : Task) : Op :=
  if t.is_deleted then .delete
  else if (match t.version with | some v => decide (v ≠ 0 ∧ v ≤ 1) | none => false)
      || (t.created_at.ms == t.updated_at.ms) then .create
  else .update

theorem inferOperationType_eq_amended (t : Task) :
    inferOperationType t = amendedInferOp t := by
  unfold inferOperationType amendedInferOp versionTruthyLeOne
  cases t.version with
  | none => rfl
  | some v => by_cases h0 : v = 0 <;> by_cases h1 : v ≤ 1 <;> simp [h0, h1]

/-- Modelled from the amended claim wording for C2: the whole
resolution rule as worded, with the corrected inference. -/
def amendedResolve (l r : Task) : Task :=
  if l.updated_at.ms > r.updated_at.ms then l
  else if r.updated_at.ms > l.updated_at.ms then r
  else if OP_PRIORITY (amendedInferOp l) ≥ OP_PRIORITY (amendedInferOp r) then l
  else r

/-- C2 amended: resolveConflict returns the strictly later updated_at
version; on an exact tie it returns the winner by inferred-operation
priority, where a version is inferred to be a create when its version
counter is present, nonzero and at most 1 or its timestamps coincide,
and the local version wins ties of equal priority; in particular two
plain updates with equal updated_at resolve to the local version, and
the code coincides with the claim-worded rule amendedResolve on every
input.  The function is pure, hence deterministic. -/
theorem C2_amended (l r : Task) :
    (l.updated_at.ms > r.updated_at.ms → resolveConflict l r = l) ∧
    (r.updated_at.ms > l.updated_at.ms → resolveConflict l r = r) ∧
    (l.updated_at.ms = r.updated_at.ms →
      resolveConflict l r =
        if OP_PRIORITY (amendedInferOp l) ≥ OP_PRIORITY (amendedInferOp r) then l else r) ∧
    (l.updated_at.ms = r.updated_at.ms → amendedInferOp l = .update →
      amendedInferOp r = .update → resolveConflict l r = l) ∧
    resolveConflict l r = amendedResolve l r := by
  refine ⟨?_, ?_, ?_, ?_, ?_⟩
  · intro h
    unfold resolveConflict
    rw [if_pos h]
  · intro h
    unfold resolveConflict
    rw [if_neg (by omega), if_pos h]
  · intro h
    unfold resolveConflict
    rw [if_neg (by omega), if_neg (by omega), inferOperationType_eq_amended,
      inferOperationType_eq_amended]
  · intro h hl hr
    unfold resolveConflict
    rw [if_neg (by omega), if_neg (by omega), inferOperationType_eq_amended,
      inferOperationType_eq_amended, hl, hr, if_pos le_rfl]
  · unfold resolveConflict amendedResolve
    rw [inferOperationType_eq_amended, inferOperationType_eq_amended]

/-- C2 witness: the amended tie rule applied at the counterexample pair,
where both sides are amended-inferred updates, yields the local
version. -/
theorem C2_witness : resolveConflict cxLocal cxRemote = cxLocal :=
  (C2_amended cxLocal cxRemote).2.2.2.1 rfl (by decide) (by decide)

/-! Claim C7: the batch checksum. -/

/-- Modelled from the claim wording for C7: fold hash to hash * 31 plus
the character code, wrapped to 32 signed bits, over the joined key
string. -/
def claimedHash (s : String) : Int :=
  s.data.foldl (fun h c => toInt32 (h * 31 + c.toNat)) 0

/-- Modelled from the claim wording for C7: the base-10 string of the
folded 32-bit hash of the joined items. -/
def claimedChecksum (items : List QueueRow) : String :=
  toString (claimedHash (String.intercalate "|" (items.map itemKey)))

theorem jsHashStep_eq (h : Int) (c : Nat) : jsHashStep h c = toInt32 (h * 31 + c) := by
  unfold jsHashStep toInt32
  omega

theorem jsHash_eq_claimed (s : String) : jsHash s = claimedHash s := by
  unfold jsHash claimedHash
  congr 1
  funext h c
  exact jsHashStep_eq h c.toNat

/-- The payload task used by the checksum counterexample. -/
def cxPayload : Task :=
  ⟨"p", "x", "", false, ⟨0, "e"⟩, ⟨0, "e"⟩, false, .pending, none, none, none⟩

/-- First checksum item, task identity Aa. -/
def cxItem1 : QueueRow := ⟨"q1", "Aa", .create, cxPayload, ⟨0, "Z"⟩, 0, none⟩

/-- Second checksum item, task identity BB. -/
def cxItem2 : QueueRow := ⟨"q2", "BB", .create, cxPayload, ⟨0, "Z"⟩, 0, none⟩

/-- C7 counterexample: two distinct items whose two orderings produce
the same checksum string (the rolling hash collides, Aa and BB hash
alike), refuting the claim that reordering a batch of non-identical
items changes the checksum. -/
theorem C7_counterexample :
    cxItem1 ≠ cxItem2 ∧
    calculateChecksum [cxItem1, cxItem2] = calculateChecksum [cxItem2, cxItem1] := by
  constructor
  · decide
  · have h : jsHash (String.intercalate "|" ([cxItem1, cxItem2].map itemKey))
        = jsHash (String.intercalate "|" ([cxItem2, cxItem1].map itemKey)) := by decide
    unfold calculateChecksum
    rw [h]

/-- C7 amended: the checksum is the base-10 string of the 32-bit signed
integer obtained by folding the pipe-joined taskId:operation:iso
fragments with hash to hash * 31 plus the character code wrapped to 32
bits, and the same ordered batch always yields the same checksum
string; reordering distinct items, however, may collide. -/
theorem C7_amended (items : List QueueRow) :
    calculateChecksum items = claimedChecksum items := by
  unfold calculateChecksum claimedChecksum
  rw [jsHash_eq_claimed]

/-! Claim C10: queue cleanup on terminal status updates. -/

/-- C10: setting a task to synced or failed deletes every queue entry
owned by that task (not only the entry being settled); any other
status leaves the queue unchanged. -/
theorem C10_queue_cleanup (env : Env) (db : DB) (taskId : String)
    (status : SyncStatus) (serverData : Option Task) :
    ((status = .synced ∨ status = .failed) →
      (updateSyncStatus env db taskId status serverData).sync_queue
        = db.sync_queue.filter (fun q => q.task_id != taskId)) ∧
    ((status ≠ .synced ∧ status ≠ .failed) →
      (updateSyncStatus env db taskId status serverData).sync_queue = db.sync_queue) := by
  constructor
  · rintro (rfl | rfl) <;> rfl
  · rintro ⟨h1, h2⟩
    cases status with
    | synced => exact absurd rfl h1
    | failed => exact absurd rfl h2
    | pending => rfl
    | inProgress => rfl
    | error => rfl

/-! Concrete fixtures shared by witnesses and counterexamples. -/

/-- A reusable concrete clock value. -/
def nowW : Date := ⟨100, "1970-01-01T00:00:00.100Z"⟩

/-- Concrete task a. -/
def taskA : Task := ⟨"a", "A", "", false, ⟨0, "e0"⟩, ⟨0, "e0"⟩, false, .pending, none, none, none⟩

/-- Concrete task b. -/
def taskB : Task := ⟨"b", "B", "", false, ⟨0, "e0"⟩, ⟨0, "e0"⟩, false, .pending, none, none, none⟩

/-- Queue entry for task a. -/
def rowA : QueueRow := ⟨"qa", "a", .create, taskA, ⟨1, "t1"⟩, 0, none⟩

/-- Queue entry for task b. -/
def rowB : QueueRow := ⟨"qb", "b", .create, taskB, ⟨2, "t2"⟩, 0, none⟩

/-- A store with two tasks and their two queue entries. -/
def dbAB : DB := ⟨[taskA, taskB], [rowA, rowB], [], 0⟩

/-- An environment whose connectivity probe fails. -/
def envOffline : Env := ⟨false, fun _ => Except.error "x", nowW⟩

/-- C10 witness: the cleanup equation applied at a concrete synced
update. -/
theorem C10_witness :
    (updateSyncStatus envOffline dbAB "a" .synced none).sync_queue
      = dbAB.sync_queue.filter (fun q => q.task_id != "a") :=
  (C10_queue_cleanup envOffline dbAB "a" .synced none).1 (Or.inl rfl)

/-! Claim C1: the retry and dead-letter path. -/

theorem find?_map_pred {l : List QueueRow} {p : QueueRow → Bool} {g : QueueRow → QueueRow}
    (hg : ∀ x, p (g x) = p x) : (l.map g).find? p = (l.find? p).map g := by
  induction l with
  | nil => rfl
  | cons x xs ih =>
      cases hpx : p x with
      | true =>
          rw [List.map_cons, List.find?_cons_of_pos _ (by rw [hg x]; exact hpx),
            List.find?_cons_of_pos _ hpx]
          rfl
      | false =>
          rw [List.map_cons, List.find?_cons_of_neg _ (by rw [hg x]; simp [hpx]),
            List.find?_cons_of_neg _ (by simp [hpx])]
          exact ih

theorem updateSyncStatus_queue_error (env : Env) (db : DB) (taskId : String)
    (sd : Option Task) :
    (updateSyncStatus env db taskId SyncStatus.error sd).sync_queue = db.sync_queue := rfl

theorem updateSyncStatus_queue_synced (env : Env) (db : DB) (taskId : String)
    (sd : Option Task) :
    (updateSyncStatus env db taskId .synced sd).sync_queue
      = db.sync_queue.filter (fun q => q.task_id != taskId) := rfl

theorem updateSyncStatus_queue_failed (env : Env) (db : DB) (taskId : String)
    (sd : Option Task) :
    (updateSyncStatus env db taskId .failed sd).sync_queue
      = db.sync_queue.filter (fun q => q.task_id != taskId) := rfl

theorem updateSyncStatus_dlq (env : Env) (db : DB) (taskId : String)
    (status : SyncStatus) (sd : Option Task) :
    (updateSyncStatus env db taskId status sd).dead_letter_queue
      = db.dead_letter_queue := by
  unfold updateSyncStatus
  dsimp only
  by_cases h : (status == SyncStatus.synced || status == SyncStatus.failed) = true
  · rw [if_pos h]
  · rw [if_neg h]

theorem updateSyncStatus_tasks (env : Env) (db : DB) (taskId : String)
    (status : SyncStatus) (sd : Option Task) :
    (updateSyncStatus env db taskId status sd).tasks
      = db.tasks.map (fun t =>
          if t.id == taskId then
            { t with sync_status := status,
                     server_id := match coalesceServerId sd with
                       | some s => some s
                       | none => t.server_id,
                     last_synced_at :=
                       if status == SyncStatus.synced then some env.now
                       else t.last_synced_at }
          else t) := by
  unfold updateSyncStatus
  dsimp only
  by_cases h : (status == SyncStatus.synced || status == SyncStatus.failed) = true
  · rw [if_pos h]
  · rw [if_neg h]

theorem updateSyncStatus_status (env : Env) (db : DB) (taskId : String)
    (status : SyncStatus) (sd : Option Task) :
    ∀ t ∈ (updateSyncStatus env db taskId status sd).tasks,
      t.id = taskId → t.sync_status = status := by
  intro t ht htid
  rw [updateSyncStatus_tasks] at ht
  simp only [List.mem_map] at ht
  rcases ht with ⟨t0, _, rfl⟩
  by_cases h0 : (t0.id == taskId) = true
  · rw [if_pos h0]
  · rw [if_neg h0] at htid ⊢
    exact absurd (by simp [htid]) h0

/-- C1: for an entry present in the queue, a transport failure below
the retry budget keeps the entry with an incremented counter and the
stored message, leaves the dead-letter table alone, and marks the task
error; at the budget the entry is archived exactly once into the
dead-letter table with the message, removed from the queue, and the
task is marked failed. -/
theorem C1_retry_deadletter (env : Env) (db : DB) (item : QueueRow) (msg : String)
    (row : QueueRow)
    (hfind : db.sync_queue.find? (fun q => q.id == item.id) = some row) :
    (row.retry_count + 1 < MAX_RETRY_COUNT →
      (handleSyncError env db item msg).sync_queue.find? (fun q => q.id == item.id)
          = some { row with retry_count := row.retry_count + 1, error_message := some msg } ∧
      (handleSyncError env db item msg).dead_letter_queue = db.dead_letter_queue ∧
      ∀ t ∈ (handleSyncError env db item msg).tasks, t.id = item.task_id →
        t.sync_status = SyncStatus.error) ∧
    (row.retry_count + 1 ≥ MAX_RETRY_COUNT →
      (handleSyncError env db item msg).dead_letter_queue
          = db.dead_letter_queue ++
              [⟨freshId db, item.task_id, item.operation, item.data, some msg, env.now⟩] ∧
      (handleSyncError env db item msg).sync_queue.find? (fun q => q.id == item.id) = none ∧
      ∀ t ∈ (handleSyncError env db item msg).tasks, t.id = item.task_id →
        t.sync_status = SyncStatus.failed) := by
  have hid0 := List.find?_some hfind
  have hid : (row.id == item.id) = true := hid0
  constructor
  · intro hlt
    have hform : handleSyncError env db item msg =
        updateSyncStatus env
          { db with
            sync_queue := db.sync_queue.map fun q =>
              if q.id == item.id then
                { q with retry_count := row.retry_count + 1, error_message := some msg }
              else q }
          item.task_id SyncStatus.error none := by
      unfold handleSyncError
      simp only [hfind]
      rw [if_neg (by omega)]
    rw [hform]
    refine ⟨?_, ?_, updateSyncStatus_status env _ item.task_id SyncStatus.error none⟩
    · rw [updateSyncStatus_queue_error]
      show (db.sync_queue.map _).find? _ = _
      rw [find?_map_pred (fun x => by split <;> rfl), hfind]
      show some _ = some _
      dsimp only
      rw [if_pos hid]
    · rw [updateSyncStatus_dlq]
  · intro hge
    have hform : handleSyncError env db item msg =
        updateSyncStatus env
          { db with
            dead_letter_queue := db.dead_letter_queue ++
              [⟨freshId db, item.task_id, item.operation, item.data, some msg, env.now⟩],
            nextId := db.nextId + 1,
            sync_queue := db.sync_queue.filter fun q => q.id != item.id }
          item.task_id SyncStatus.failed none := by
      unfold handleSyncError
      simp only [hfind]
      rw [if_pos (by omega)]
    rw [hform]
    refine ⟨?_, ?_, updateSyncStatus_status env _ item.task_id .failed none⟩
    · rw [updateSyncStatus_dlq]
    · rw [updateSyncStatus_queue_failed]
      apply List.find?_eq_none.mpr
      intro q hq
      have hq1 : q ∈ db.sync_queue.filter (fun q => q.id != item.id) :=
        (List.mem_filter.mp hq).1
      have hq2 := (List.mem_filter.mp hq1).2
      simpa using hq2

/-- C1 witness: the below-budget arm applied to the concrete store,
entry qa at retry count 0. -/
theorem C1_witness :
    dbAB.sync_queue.find? (fun q => q.id == rowA.id) = some rowA ∧
    (handleSyncError envOffline dbAB rowA "boom").sync_queue.find?
        (fun q => q.id == rowA.id)
      = some { rowA with retry_count := 1, error_message := some "boom" } := by
  refine ⟨by decide, ?_⟩
  have h := C1_retry_deadletter envOffline dbAB rowA "boom" rowA (by decide)
  exact (h.1 (by decide)).1

/-! Claim C8: the local mutation lifecycle. -/

/-- A stored task in synced state with an old update instant. -/
def taskS : Task :=
  ⟨"t1", "Old", "", false, ⟨0, "e0"⟩, ⟨10, "e10"⟩, false, .synced, none, none, some 1⟩

/-- A store holding only that task. -/
def dbS : DB := ⟨[taskS], [], [], 0⟩

/-- A clock later than the stored update instant. -/
def envUpd : Env := ⟨true, fun _ => Except.error "x", ⟨50, "e50"⟩⟩

/-- C8 bug evaluation: updateTask on an existing task returns the
updated object and appends a queue entry, but the stored row is left
completely unchanged (sync_status stays synced, updated_at stays at
the old instant), because the UPDATE statement supplies six values for
seven placeholders and its WHERE id clause compares against NULL.  The
claim (and the spec lifecycle) requires the stored row to be persisted
with sync_status pending and updated_at refreshed. -/
theorem C8_update_bug :
    (updateTask envUpd dbS "t1" { emptyPatch with title := some "New" }).1
        = some { taskS with title := "New", updated_at := ⟨50, "e50"⟩,
                            sync_status := .pending } ∧
    (updateTask envUpd dbS "t1" { emptyPatch with title := some "New" }).2.tasks
        = dbS.tasks ∧
    (updateTask envUpd dbS "t1" { emptyPatch with title := some "New" }).2.sync_queue.length
        = dbS.sync_queue.length + 1 := by
  refine ⟨by decide, by decide, by decide⟩

/-! Claim C5: a batch whose transport call throws. -/

theorem failBatch_spec (env : Env) (msg : String) :
    ∀ (batch : List QueueRow) (st : SyncResult × DB),
      failBatch env msg st batch =
        (⟨false, st.1.synced_items, st.1.failed_items + batch.length,
          st.1.errors ++ batch.map (fun it => ⟨it.task_id, opStr it.operation, msg, env.now⟩)⟩,
         batch.foldl (fun d it => handleSyncError env d it msg) st.2) := by
  intro batch
  induction batch with
  | nil =>
      intro st
      show ({ st.1 with success := false }, st.2) = _
      simp
  | cons x xs ih =>
      intro st
      have hstep : failBatch env msg st (x :: xs)
          = failBatch env msg
              (⟨st.1.success, st.1.synced_items, st.1.failed_items + 1,
                st.1.errors ++ [⟨x.task_id, opStr x.operation, msg, env.now⟩]⟩,
               handleSyncError env st.2 x msg) xs := rfl
      rw [hstep, ih]
      simp [List.length_cons]
      omega

/-- C5: when the connectivity probe passes but the transport call for a
batch throws, every item of the batch is routed through the
retry/dead-letter handler, exactly one error record per item is
appended, the result is marked unsuccessful, and the pass is a plain
fold over all batches, so processing continues with the next batch. -/
theorem C5_batch_throw (env : Env) (st : PassState) (batch : List QueueRow) (msg : String)
    (hconn : env.connectivity = true) (hpost : env.post batch = .error msg) :
    runBatch env st batch =
      ⟨⟨false, st.result.synced_items, st.result.failed_items + batch.length,
        st.result.errors ++ batch.map (fun it => ⟨it.task_id, opStr it.operation, msg, env.now⟩)⟩,
       batch.foldl (fun d it => handleSyncError env d it msg)
         (markTasksInProgress st.db (uniqueTaskIds batch)),
       st.posted ++ [batch]⟩ ∧
    ∀ db, sync env db
        = (chunksOf SYNC_BATCH_SIZE (canonicalOrder db.sync_queue)).foldl (runBatch env)
            ⟨initResult, db, []⟩ := by
  refine ⟨?_, fun db => rfl⟩
  unfold runBatch
  rw [if_pos hconn, hpost]
  dsimp only
  rw [failBatch_spec]

/-- An environment whose transport always throws boom. -/
def envThrow : Env := ⟨true, fun _ => Except.error "boom", nowW⟩

/-- C5 witness: the throwing-batch equation at a concrete two-item
batch. -/
theorem C5_witness :
    (runBatch envThrow ⟨initResult, dbAB, []⟩ [rowA, rowB]).result.failed_items = 2 ∧
    (runBatch envThrow ⟨initResult, dbAB, []⟩ [rowA, rowB]).result.success = false ∧
    (runBatch envThrow ⟨initResult, dbAB, []⟩ [rowA, rowB]).result.errors.length = 2 := by
  have h := (C5_batch_throw envThrow ⟨initResult, dbAB, []⟩ [rowA, rowB] "boom" rfl rfl).1
  rw [h]
  refine ⟨rfl, rfl, by decide⟩

/-! Claim C4: a pass while the remote is unreachable. -/

/-- The connectivity error record an offline pass appends for a queue
entry. -/
def connError (env : Env) (it : QueueRow) : SyncError :=
  ⟨it.task_id, opStr it.operation, "Server not reachable", env.now⟩

/-- The store transition of one batch of an offline pass: its tasks are
marked in-progress, then every entry goes through the retry/dead-letter
failure handler with the connectivity error. -/
def offlineStep (env : Env) (d : DB) (batch : List QueueRow) : DB :=
  batch.foldl (fun d2 it => handleSyncError env d2 it "Server not reachable")
    (markTasksInProgress d (uniqueTaskIds batch))

theorem runBatch_offline (env : Env) (st : PassState) (batch : List QueueRow)
    (hoff : env.connectivity = false) :
    runBatch env st batch =
      ⟨⟨false, st.result.synced_items, st.result.failed_items + batch.length,
        st.result.errors ++ batch.map (connError env)⟩,
       batch.foldl (fun d it => handleSyncError env d it "Server not reachable")
         (markTasksInProgress st.db (uniqueTaskIds batch)),
       st.posted⟩ := by
  unfold runBatch
  rw [if_neg (by simp [hoff])]
  dsimp only
  rw [failBatch_spec]
  rfl

theorem sync_offline_fold (env : Env) (hoff : env.connectivity = false) :
    ∀ (batches : List (List QueueRow)) (st : PassState),
      (batches.foldl (runBatch env) st).posted = st.posted ∧
      (batches.foldl (runBatch env) st).result.errors.length
        = st.result.errors.length + (batches.map List.length).sum ∧
      (batches ≠ [] → (batches.foldl (runBatch env) st).result.success = false) := by
  intro batches
  induction batches with
  | nil =>
      intro st
      exact ⟨rfl, by simp, fun h => absurd rfl h⟩
  | cons b bs ih =>
      intro st
      rw [List.foldl_cons]
      have hb := runBatch_offline env st b hoff
      refine ⟨?_, ?_, ?_⟩
      · rw [(ih _).1, hb]
      · rw [(ih _).2.1, hb]
        simp [List.length_append, List.length_map]
        omega
      · intro _
        cases bs with
        | nil =>
            rw [List.foldl_nil, hb]
        | cons b2 bs2 =>
            exact (ih _).2.2 (List.cons_ne_nil b2 bs2)

theorem chunksFuel_length_sum {α : Type} (n : Nat) (hn : 0 < n) :
    ∀ (fuel : Nat) (l : List α), l.length ≤ fuel →
      ((chunksFuel n fuel l).map List.length).sum = l.length := by
  intro fuel
  induction fuel with
  | zero =>
      intro l h
      have hl : l = [] := List.eq_nil_of_length_eq_zero (by omega)
      subst hl
      rfl
  | succ f ih =>
      intro l h
      cases l with
      | nil => rfl
      | cons x xs =>
          have hd : ((x :: xs).drop n).length ≤ f := by
            rw [List.length_drop]
            simp only [List.length_cons] at h ⊢
            omega
          have hstep : chunksFuel n (f + 1) (x :: xs)
              = (x :: xs).take n :: chunksFuel n f ((x :: xs).drop n) := rfl
          rw [hstep, List.map_cons, List.sum_cons, ih _ hd, List.length_take,
            List.length_drop]
          simp only [List.length_cons]
          omega

theorem chunksOf_length_sum {α : Type} (n : Nat) (hn : 0 < n) (l : List α) :
    ((chunksOf n l).map List.length).sum = l.length :=
  chunksFuel_length_sum n hn l.length l le_rfl

theorem chunksOf_ne_nil {α : Type} (n : Nat) (l : List α) (h : l ≠ []) :
    chunksOf n l ≠ [] := by
  cases l with
  | nil => exact absurd rfl h
  | cons x xs =>
      have hstep : chunksOf n (x :: xs)
          = (x :: xs).take n :: chunksFuel n xs.length ((x :: xs).drop n) := rfl
      rw [hstep]
      exact List.cons_ne_nil _ _

theorem canonicalOrder_length (l : List QueueRow) :
    (canonicalOrder l).length = l.length :=
  ((List.perm_insertionSort canonRel _).trans (List.perm_insertionSort isoRel l)).length_eq

theorem canonicalOrder_perm (l : List QueueRow) : (canonicalOrder l).Perm l :=
  (List.perm_insertionSort canonRel _).trans (List.perm_insertionSort isoRel l)

/-- A queue row after one below-budget connectivity failure. -/
def bumped (r : QueueRow) : QueueRow :=
  { r with retry_count := r.retry_count + 1, error_message := some "Server not reachable" }

/-- The action of the failure handler on the queue table alone. -/
def hseQueue (cur : List QueueRow) (it : QueueRow) : List QueueRow :=
  let current :=
    match cur.find? (fun q => q.id == it.id) with
    | some r => r.retry_count
    | none => it.retry_count
  if current + 1 ≥ MAX_RETRY_COUNT then
    (cur.filter (fun q => q.id != it.id)).filter (fun q => q.task_id != it.task_id)
  else
    cur.map fun q =>
      if q.id == it.id then
        { q with retry_count := current + 1, error_message := some "Server not reachable" }
      else q

theorem handleSyncError_queue (env : Env) (db : DB) (it : QueueRow) :
    (handleSyncError env db it "Server not reachable").sync_queue
      = hseQueue db.sync_queue it := by
  unfold handleSyncError hseQueue
  cases hf : db.sync_queue.find? (fun q => q.id == it.id) with
  | none =>
      dsimp only
      by_cases h : it.retry_count + 1 ≥ MAX_RETRY_COUNT
      · rw [if_pos h, if_pos h]
        exact updateSyncStatus_queue_failed env _ it.task_id none
      · rw [if_neg h, if_neg h]
        exact updateSyncStatus_queue_error env _ it.task_id none
  | some r =>
      dsimp only
      by_cases h : r.retry_count + 1 ≥ MAX_RETRY_COUNT
      · rw [if_pos h, if_pos h]
        exact updateSyncStatus_queue_failed env _ it.task_id none
      · rw [if_neg h, if_neg h]
        exact updateSyncStatus_queue_error env _ it.task_id none

theorem foldl_handleSyncError_queue (env : Env) :
    ∀ (batch : List QueueRow) (d : DB),
      (batch.foldl (fun d2 it => handleSyncError env d2 it "Server not reachable") d).sync_queue
        = batch.foldl hseQueue d.sync_queue := by
  intro batch
  induction batch with
  | nil => intro d; rfl
  | cons x xs ih =>
      intro d
      rw [List.foldl_cons, List.foldl_cons, ih, handleSyncError_queue]

theorem offlineStep_queue (env : Env) (d : DB) (batch : List QueueRow) :
    (offlineStep env d batch).sync_queue = batch.foldl hseQueue d.sync_queue :=
  foldl_handleSyncError_queue env batch (markTasksInProgress d (uniqueTaskIds batch))

theorem sync_offline_db (env : Env) (hoff : env.connectivity = false) :
    ∀ (batches : List (List QueueRow)) (st : PassState),
      (batches.foldl (runBatch env) st).db = batches.foldl (offlineStep env) st.db := by
  intro batches
  induction batches with
  | nil => intro st; rfl
  | cons b bs ih =>
      intro st
      rw [List.foldl_cons, List.foldl_cons, ih, runBatch_offline env st b hoff]
      rfl

theorem sync_offline_errors (env : Env) (hoff : env.connectivity = false) :
    ∀ (batches : List (List QueueRow)) (st : PassState),
      (batches.foldl (runBatch env) st).result.errors
        = st.result.errors ++ batches.flatten.map (connError env) := by
  intro batches
  induction batches with
  | nil => intro st; simp
  | cons b bs ih =>
      intro st
      rw [List.foldl_cons, ih, runBatch_offline env st b hoff]
      dsimp only
      rw [List.flatten_cons, List.map_append, List.append_assoc]

theorem chunksFuel_flatten {α : Type} (n : Nat) (hn : 0 < n) :
    ∀ (fuel : Nat) (l : List α), l.length ≤ fuel → (chunksFuel n fuel l).flatten = l := by
  intro fuel
  induction fuel with
  | zero =>
      intro l h
      have hl : l = [] := List.eq_nil_of_length_eq_zero (by omega)
      subst hl
      rfl
  | succ f ih =>
      intro l h
      cases l with
      | nil => rfl
      | cons x xs =>
          have hd : ((x :: xs).drop n).length ≤ f := by
            rw [List.length_drop]
            simp only [List.length_cons] at h ⊢
            omega
          have hstep : chunksFuel n (f + 1) (x :: xs)
              = (x :: xs).take n :: chunksFuel n f ((x :: xs).drop n) := rfl
          rw [hstep, List.flatten_cons, ih _ hd, List.take_append_drop]

theorem chunksOf_flatten {α : Type} (n : Nat) (hn : 0 < n) (l : List α) :
    (chunksOf n l).flatten = l :=
  chunksFuel_flatten n hn l.length l le_rfl

theorem foldl_offlineStep_queue (env : Env) :
    ∀ (batches : List (List QueueRow)) (d : DB),
      (batches.foldl (offlineStep env) d).sync_queue
        = batches.flatten.foldl hseQueue d.sync_queue := by
  intro batches
  induction batches with
  | nil => intro d; rfl
  | cons b bs ih =>
      intro d
      rw [List.foldl_cons, ih, offlineStep_queue, List.flatten_cons, List.foldl_append]

theorem find?_of_mem_nodup :
    ∀ {Q : List QueueRow}, (Q.map (fun r => r.id)).Nodup →
      ∀ {it : QueueRow}, it ∈ Q → Q.find? (fun q => q.id == it.id) = some it := by
  intro Q
  induction Q with
  | nil =>
      intro _ it hit
      cases hit
  | cons x xs ih =>
      intro hnodup it hit
      rw [List.map_cons, List.nodup_cons] at hnodup
      rcases List.mem_cons.mp hit with rfl | hmem
      · rw [List.find?_cons_of_pos _ (by simp)]
      · have hx : ¬(x.id == it.id) = true := by
          simp only [beq_iff_eq]
          intro he
          exact hnodup.1 (he ▸ List.mem_map_of_mem _ hmem)
        rw [@List.find?_cons_of_neg QueueRow (fun q => q.id == it.id) x xs hx]
        exact ih hnodup.2 hmem

theorem mem_id_unique {Q : List QueueRow} (hnodup : (Q.map (fun r => r.id)).Nodup)
    {a b : QueueRow} (ha : a ∈ Q) (hb : b ∈ Q) (hid : a.id = b.id) : a = b := by
  have h1 := find?_of_mem_nodup hnodup ha
  have h2 := find?_of_mem_nodup hnodup hb
  rw [hid] at h1
  exact Option.some.inj (h1.symm.trans h2)

theorem hseQueue_bump_fold :
    ∀ (its done Q : List QueueRow),
      (done ++ its).Perm Q →
      (Q.map (fun r => r.id)).Nodup →
      (∀ r ∈ Q, r.retry_count + 1 < MAX_RETRY_COUNT) →
      its.foldl hseQueue
          (Q.map (fun r =>
            if r.id ∈ done.map (fun x => x.id) then bumped r else r))
        = Q.map bumped := by
  intro its
  induction its with
  | nil =>
      intro done Q hperm hnodup hlow
      rw [List.foldl_nil]
      apply List.map_congr_left
      intro r hr
      have hrdone : r ∈ done := by
        have hm := hperm.symm.mem_iff.mp hr
        simpa using hm
      rw [if_pos (List.mem_map_of_mem _ hrdone)]
  | cons it its ih =>
      intro done Q hperm hnodup hlow
      rw [List.foldl_cons]
      have hitmem : it ∈ Q := hperm.mem_iff.mp (by simp)
      have hnodup' : ((done ++ it :: its).map (fun x => x.id)).Nodup :=
        ((hperm.map (fun x => x.id)).nodup_iff).mpr hnodup
      have hitnotdone : it.id ∉ done.map (fun x => x.id) := by
        rw [List.map_append] at hnodup'
        have hdisj := (List.nodup_append.mp hnodup').2.2
        intro hin
        exact hdisj hin (by simp)
      have hfindQ : Q.find? (fun q => q.id == it.id) = some it :=
        find?_of_mem_nodup hnodup hitmem
      have hgid : ∀ x : QueueRow,
          ((fun q => q.id == it.id)
            (if x.id ∈ done.map (fun y => y.id) then bumped x else x))
          = ((fun q => q.id == it.id) x) := by
        intro x
        dsimp only
        split <;> rfl
      have hfind : (Q.map (fun r =>
            if r.id ∈ done.map (fun x => x.id) then bumped r else r)).find?
              (fun q => q.id == it.id) = some it := by
        rw [find?_map_pred hgid, hfindQ, Option.map_some']
        rw [if_neg hitnotdone]
      have hstep : hseQueue
            (Q.map (fun r => if r.id ∈ done.map (fun x => x.id) then bumped r else r)) it
          = Q.map (fun r =>
              if r.id ∈ (done ++ [it]).map (fun x => x.id) then bumped r else r) := by
        unfold hseQueue
        rw [hfind]
        dsimp only
        rw [if_neg (by have := hlow it hitmem; omega)]
        rw [List.map_map]
        apply List.map_congr_left
        intro r hr
        dsimp only [Function.comp]
        by_cases hrid : r.id = it.id
        · have hreq : r = it := mem_id_unique hnodup hr hitmem hrid
          subst hreq
          rw [if_neg hitnotdone, if_pos (by simp), if_pos (by simp)]
          rfl
        · by_cases hrdone : r.id ∈ done.map (fun x => x.id)
          · rw [if_pos hrdone, if_neg (by simp [bumped, hrid]),
              if_pos (by simp [hrdone])]
          · rw [if_neg hrdone, if_neg (by simp [hrid]),
              if_neg (by simp [hrid, hrdone])]
      rw [hstep]
      have hperm' : ((done ++ [it]) ++ its).Perm Q := by
        rw [List.append_assoc]
        simpa using hperm
      exact ih (done ++ [it]) Q hperm' hnodup hlow

/-- C4 counterexample: with the remote unreachable and two queued
entries, the pass produces two error records (not exactly one) and
increments both retry counters (the claim says none is incremented). -/
theorem C4_counterexample :
    envOffline.connectivity = false ∧
    ¬((sync envOffline dbAB).result.errors.length = 1 ∧
      (sync envOffline dbAB).db.sync_queue.map (fun q => q.retry_count) = [0, 0]) :=
  ⟨rfl, by decide⟩

/-- C4 amended: while the remote is unreachable the pass hands no batch
to the transport, yet it still walks every batch: the store evolves,
batch by batch, by marking the batch tasks in-progress and routing
every entry through the retry/dead-letter failure handler (the
offlineStep fold); the result carries exactly one connectivity error
record per queue entry, in canonical order, and is unsuccessful
whenever the queue is non-empty; and when the entry ids are distinct
and every entry is below the retry budget, every retry counter is
incremented by one with the connectivity message stored. -/
theorem C4_offline_pass (env : Env) (db : DB) (hoff : env.connectivity = false) :
    (sync env db).posted = [] ∧
    (sync env db).result.errors
      = (canonicalOrder db.sync_queue).map (connError env) ∧
    (sync env db).result.errors.length = db.sync_queue.length ∧
    (sync env db).db
      = (chunksOf SYNC_BATCH_SIZE (canonicalOrder db.sync_queue)).foldl
          (offlineStep env) db ∧
    (db.sync_queue ≠ [] → (sync env db).result.success = false) ∧
    ((db.sync_queue.map (fun r => r.id)).Nodup →
      (∀ r ∈ db.sync_queue, r.retry_count + 1 < MAX_RETRY_COUNT) →
      (sync env db).db.sync_queue = db.sync_queue.map bumped) := by
  have hfold := sync_offline_fold env hoff
    (chunksOf SYNC_BATCH_SIZE (canonicalOrder db.sync_queue)) ⟨initResult, db, []⟩
  have herr : (sync env db).result.errors
      = (canonicalOrder db.sync_queue).map (connError env) := by
    have h := sync_offline_errors env hoff
      (chunksOf SYNC_BATCH_SIZE (canonicalOrder db.sync_queue)) ⟨initResult, db, []⟩
    rw [chunksOf_flatten SYNC_BATCH_SIZE (by decide)] at h
    exact h.trans (by simp [initResult])
  have hdb : (sync env db).db
      = (chunksOf SYNC_BATCH_SIZE (canonicalOrder db.sync_queue)).foldl
          (offlineStep env) db :=
    sync_offline_db env hoff _ _
  refine ⟨hfold.1, herr, ?_, hdb, ?_, ?_⟩
  · rw [herr, List.length_map, canonicalOrder_length]
  · intro hne
    apply hfold.2.2
    apply chunksOf_ne_nil
    intro hc
    have hlen := canonicalOrder_length db.sync_queue
    rw [hc] at hlen
    exact hne (List.eq_nil_of_length_eq_zero hlen.symm)
  · intro hnodup hlow
    rw [hdb, foldl_offlineStep_queue, chunksOf_flatten SYNC_BATCH_SIZE (by decide)]
    have hmain := hseQueue_bump_fold (canonicalOrder db.sync_queue) [] db.sync_queue
      (by simpa using canonicalOrder_perm db.sync_queue) hnodup hlow
    have hq : db.sync_queue.map (fun r =>
        if r.id ∈ (([] : List QueueRow)).map (fun x => x.id) then bumped r else r)
        = db.sync_queue := by
      simp
    rw [hq] at hmain
    exact hmain

/-- C4 witness: the amended statement evaluated on the concrete offline
environment and two-entry store, incremented counters included. -/
theorem C4_witness :
    (sync envOffline dbAB).posted = [] ∧
    (sync envOffline dbAB).result.errors.length = dbAB.sync_queue.length ∧
    (sync envOffline dbAB).result.success = false ∧
    (sync envOffline dbAB).db.sync_queue = dbAB.sync_queue.map bumped := by
  have h := C4_offline_pass envOffline dbAB rfl
  exact ⟨h.1, h.2.2.1, h.2.2.2.2.1 (by decide), h.2.2.2.2.2 (by decide) (by decide)⟩

/-! Claim C6: success outcomes. -/

theorem processOutcome_success (env : Env) (st : SyncResult × DB) (res : ProcessedItem)
    (h : res.status = "success") :
    processOutcome env st res =
      ({ st.1 with synced_items := st.1.synced_items + 1 },
       updateSyncStatus env st.2 res.client_id .synced res.resolved_data) := by
  unfold processOutcome
  rw [if_pos (by rw [h]; rfl)]

theorem processOutcome_success_preserves (env : Env) (st : SyncResult × DB)
    (res : ProcessedItem) (h : res.status = "success") (cid : String)
    (ht : ∀ t ∈ st.2.tasks, t.id = cid → t.sync_status = .synced)
    (hq : ∀ q ∈ st.2.sync_queue, q.task_id ≠ cid) :
    (∀ t ∈ (processOutcome env st res).2.tasks, t.id = cid → t.sync_status = .synced) ∧
    (∀ q ∈ (processOutcome env st res).2.sync_queue, q.task_id ≠ cid) := by
  rw [processOutcome_success env st res h]
  constructor
  · intro t htm htid
    rw [updateSyncStatus_tasks] at htm
    simp only [List.mem_map] at htm
    rcases htm with ⟨t0, ht0, rfl⟩
    by_cases h0 : (t0.id == res.client_id) = true
    · rw [if_pos h0]
    · rw [if_neg h0] at htid ⊢
      exact ht t0 ht0 htid
  · intro q hqm
    have hqf : q ∈ st.2.sync_queue.filter (fun q => q.task_id != res.client_id) := hqm
    exact hq q (List.mem_filter.mp hqf).1

theorem processOutcome_success_establishes (env : Env) (st : SyncResult × DB)
    (res : ProcessedItem) (h : res.status = "success") :
    (∀ t ∈ (processOutcome env st res).2.tasks, t.id = res.client_id →
      t.sync_status = .synced) ∧
    (∀ q ∈ (processOutcome env st res).2.sync_queue, q.task_id ≠ res.client_id) := by
  rw [processOutcome_success env st res h]
  constructor
  · exact updateSyncStatus_status env st.2 res.client_id .synced res.resolved_data
  · intro q hqm
    have hqf : q ∈ st.2.sync_queue.filter (fun q => q.task_id != res.client_id) := hqm
    have h2 := (List.mem_filter.mp hqf).2
    simpa using h2

theorem foldl_success_invariant (env : Env) (cid : String) :
    ∀ (items : List ProcessedItem) (st : SyncResult × DB),
      (∀ r ∈ items, r.status = "success") →
      ((∀ t ∈ st.2.tasks, t.id = cid → t.sync_status = .synced) ∧
       (∀ q ∈ st.2.sync_queue, q.task_id ≠ cid)) →
      ((∀ t ∈ (items.foldl (processOutcome env) st).2.tasks, t.id = cid →
          t.sync_status = .synced) ∧
       (∀ q ∈ (items.foldl (processOutcome env) st).2.sync_queue, q.task_id ≠ cid)) := by
  intro items
  induction items with
  | nil =>
      intro st _ hinv
      exact hinv
  | cons r rs ih =>
      intro st hall hinv
      rw [List.foldl_cons]
      refine ih _ (fun x hx => hall x (List.mem_cons_of_mem r hx)) ?_
      exact processOutcome_success_preserves env st r (hall r (List.mem_cons_self r rs)) cid
        hinv.1 hinv.2

theorem foldl_success_synced (env : Env) :
    ∀ (items : List ProcessedItem) (st : SyncResult × DB),
      (∀ r ∈ items, r.status = "success") →
      ∀ cid ∈ items.map (fun r => r.client_id),
        (∀ t ∈ (items.foldl (processOutcome env) st).2.tasks, t.id = cid →
          t.sync_status = .synced) ∧
        (∀ q ∈ (items.foldl (processOutcome env) st).2.sync_queue, q.task_id ≠ cid) := by
  intro items
  induction items with
  | nil =>
      intro st _ cid hcid
      simp at hcid
  | cons r rs ih =>
      intro st hall cid hcid
      rcases List.mem_cons.mp hcid with hceq | hcm
      · subst hceq
        rw [List.foldl_cons]
        exact foldl_success_invariant env r.client_id rs _
          (fun x hx => hall x (List.mem_cons_of_mem r hx))
          (processOutcome_success_establishes env st r (hall r (List.mem_cons_self r rs)))
      · rw [List.foldl_cons]
        exact ih _ (fun x hx => hall x (List.mem_cons_of_mem r hx)) cid hcm

/-- The per-item outcome whose top-level server_id the code never
reads. -/
def resCx : ProcessedItem := ⟨"a", some "S1", "success", none, none⟩

/-- C6 counterexample: a success outcome carrying its remote-assigned
identity in the top-level server_id field with no resolved payload;
the code persists nothing (both stored tasks keep server_id none), so
the remote-assigned identity in the outcome is not persisted onto the
task. -/
theorem C6_counterexample :
    resCx.status = "success" ∧ resCx.server_id = some "S1" ∧
    (processOutcome envThrow (initResult, dbAB) resCx).2.tasks.map (fun t => t.server_id)
      = [none, none] :=
  ⟨rfl, rfl, by decide⟩

/-- C6 amended: for a success outcome the synced counter is bumped, the
referenced task rows get sync_status synced, a last-synced stamp, and
the remote identity carried in the resolved payload (kept otherwise),
and every queue entry of the task is removed; hence after a batch
whose response is all success, every referenced task is synced with no
remaining queue entries.  The top-level server_id field of an outcome
is never read: outcome processing is invariant under changing it. -/
theorem C6_success_outcomes :
    (∀ (env : Env) (st : SyncResult × DB) (res : ProcessedItem), res.status = "success" →
      (processOutcome env st res).1.synced_items = st.1.synced_items + 1 ∧
      (processOutcome env st res).1.errors = st.1.errors ∧
      (processOutcome env st res).1.success = st.1.success ∧
      (processOutcome env st res).2.sync_queue
        = st.2.sync_queue.filter (fun q => q.task_id != res.client_id) ∧
      (processOutcome env st res).2.tasks
        = st.2.tasks.map (fun t =>
            if t.id == res.client_id then
              { t with sync_status := .synced,
                       server_id := match coalesceServerId res.resolved_data with
                         | some s => some s
                         | none => t.server_id,
                       last_synced_at := some env.now }
            else t)) ∧
    (∀ (env : Env) (st : PassState) (batch : List QueueRow) (resp : BatchSyncResponse),
      env.connectivity = true → env.post batch = .ok resp →
      (∀ r ∈ resp.processed_items, r.status = "success") →
      ∀ cid ∈ resp.processed_items.map (fun r => r.client_id),
        (∀ t ∈ (runBatch env st batch).db.tasks, t.id = cid → t.sync_status = .synced) ∧
        (∀ q ∈ (runBatch env st batch).db.sync_queue, q.task_id ≠ cid)) ∧
    (∀ (env : Env) (st : SyncResult × DB) (res : ProcessedItem) (sid : Option String),
      processOutcome env st { res with server_id := sid } = processOutcome env st res) := by
  refine ⟨?_, ?_, fun env st res sid => rfl⟩
  · intro env st res h
    rw [processOutcome_success env st res h]
    refine ⟨rfl, rfl, rfl, rfl, ?_⟩
    rw [updateSyncStatus_tasks]
    rfl
  · intro env st batch resp hconn hpost hall cid hcid
    have hform : runBatch env st batch =
        ⟨(resp.processed_items.foldl (processOutcome env)
            (st.result, markTasksInProgress st.db (uniqueTaskIds batch))).1,
         (resp.processed_items.foldl (processOutcome env)
            (st.result, markTasksInProgress st.db (uniqueTaskIds batch))).2,
         st.posted ++ [batch]⟩ := by
      unfold runBatch
      rw [if_pos hconn, hpost]
    rw [hform]
    exact foldl_success_synced env resp.processed_items _ hall cid hcid

/-- The all-success response naming task a. -/
def respOk : BatchSyncResponse := ⟨[⟨"a", none, "success", none, none⟩]⟩

/-- An environment whose transport returns the all-success response. -/
def envOk : Env := ⟨true, fun _ => Except.ok respOk, nowW⟩

/-- C6 witness: after a concrete all-success batch, task a is synced
and owns no queue entries. -/
theorem C6_witness :
    (∀ t ∈ (runBatch envOk ⟨initResult, dbAB, []⟩ [rowA]).db.tasks,
        t.id = "a" → t.sync_status = .synced) ∧
    (∀ q ∈ (runBatch envOk ⟨initResult, dbAB, []⟩ [rowA]).db.sync_queue,
        q.task_id ≠ "a") := by
  have h := (C6_success_outcomes).2.1 envOk ⟨initResult, dbAB, []⟩ [rowA] respOk rfl rfl
    (by decide) "a" (by decide)
  exact h

/-! Claim C9: conflict outcomes with a missing local record. -/

/-- C9: a conflict outcome whose local record cannot be found marks the
task error, appends exactly one error record, makes the pass
unsuccessful, and touches neither the queue (no retry increment) nor
the dead-letter table. -/
theorem C9_conflict_missing_local (env : Env) (st : SyncResult × DB) (res : ProcessedItem)
    (hc : res.status = "conflict") (hmiss : getTask st.2 res.client_id = none) :
    (processOutcome env st res).1.success = false ∧
    (processOutcome env st res).1.failed_items = st.1.failed_items + 1 ∧
    (processOutcome env st res).1.synced_items = st.1.synced_items ∧
    (∃ e, (processOutcome env st res).1.errors = st.1.errors ++ [e] ∧
      e.task_id = res.client_id) ∧
    (processOutcome env st res).2.sync_queue = st.2.sync_queue ∧
    (processOutcome env st res).2.dead_letter_queue = st.2.dead_letter_queue ∧
    ∀ t ∈ (processOutcome env st res).2.tasks, t.id = res.client_id →
      t.sync_status = SyncStatus.error := by
  have hform : ∃ msg, processOutcome env st res = itemFailure env st res.client_id msg := by
    unfold processOutcome
    rw [if_neg (by rw [hc]; decide), if_pos (by rw [hc]; rfl)]
    cases hres : res.resolved_data with
    | none =>
        exact ⟨_, rfl⟩
    | some d =>
        rw [hmiss]
        exact ⟨_, rfl⟩
  rcases hform with ⟨msg, hform⟩
  rw [hform]
  unfold itemFailure
  refine ⟨rfl, rfl, rfl, ⟨⟨res.client_id, "unknown", msg, env.now⟩, rfl, rfl⟩, rfl, rfl, ?_⟩
  intro t htm htid
  simp only [List.mem_map] at htm
  rcases htm with ⟨t0, _, rfl⟩
  by_cases h0 : (t0.id == res.client_id) = true
  · rw [if_pos h0]
  · rw [if_neg h0] at htid ⊢
    exact absurd (by simp [htid]) h0

/-- A conflict outcome for a task identity absent from the store. -/
def resMiss : ProcessedItem := ⟨"zz", none, "conflict", some cxPayload, none⟩

/-- C9 witness: the conflict-with-missing-local facts at a concrete
outcome. -/
theorem C9_witness :
    (processOutcome envThrow (initResult, dbAB) resMiss).1.success = false ∧
    (processOutcome envThrow (initResult, dbAB) resMiss).2.sync_queue = dbAB.sync_queue := by
  have h := C9_conflict_missing_local envThrow (initResult, dbAB) resMiss rfl (by decide)
  exact ⟨h.1, h.2.2.2.2.1⟩

end SyncSpec
